import Mathlib

set_option maxRecDepth 10000

/-!
Shallow embedding of the incremental summarization core of the
Telegram-messages-summary repository, together with proofs of the spec's
claims about it.

The embedded code:
  * `Database.save_message` and the `messages` schema (src/db.py),
  * `MessagesDB.get_new_messages`, `MessagesDB.mark_messages_as_summarised`,
    `MessagesDB.update_last_processed` (src/telegram_bot/db_utils.py),
  * `format_messages_for_summary`, `create_summary`,
    `generate_summary_from_db` (src/telegram_bot/summary.py),
  * the error surface of `chat_completion` (src/ai/gigachat.py), with the
    network exchange modelled as an oracle.

Python strings are modelled as Lean `String`s; `str.strip`, slicing and
`len` are modelled on the underlying character list so that every
definition evaluates inside the kernel.
-/

namespace TgSummary

/-- ASCII whitespace as stripped by Python's `str.strip()` (whitespace
beyond ASCII is not modelled; no claim depends on it). -/
def isPyWs (c : Char) : Bool :=
  c == ' ' || c == '\t' || c == '\n' || c == '\r' || c == '\x0b' || c == '\x0c'

/-- Python `s.strip()`: drop leading and trailing whitespace. -/
def pyStrip (s : String) : String :=
  String.mk (((s.data.dropWhile isPyWs).reverse.dropWhile isPyWs).reverse)

/-- Python `s[:n]`: slicing counts code points. -/
def pyTake (s : String) (n : Nat) : String :=
  String.mk (s.data.take n)

/-- Lexicographic strict order on character lists; this is how SQLite's
BINARY collation compares two TEXT values (code-point order coincides with
UTF-8 byte order). -/
def lexLt : List Char → List Char → Bool
  | [], [] => false
  | [], _ :: _ => true
  | _ :: _, [] => false
  | a :: as, b :: bs => if a < b then true else if b < a then false else lexLt as bs

/-- Strict comparison of two stored `date` values. -/
def strLt (s t : String) : Bool :=
  lexLt s.data t.data

/-- A row of the `messages` table: the schema of `Database._init_db`
(src/db.py) plus the `is_summarised` column that `MessagesDB._init_db`
(src/telegram_bot/db_utils.py) adds with default 0. -/
structure Row where
  id : Int
  chat_id : Int
  sender : Option String
  type : Option String
  text : Option String
  date : String
  is_summarised : Bool
deriving DecidableEq, Repr

/-- The single record of the `summary_state` table
(src/telegram_bot/db_utils.py). -/
structure SummaryState where
  last_processed_date : String
  last_processed_id : Int
  last_processed_chat_id : Int
  updated_at : Int
deriving DecidableEq, Repr

/-- The persistent state touched by the pipeline: the `messages` table and
the singleton `summary_state` record. -/
structure Store where
  messages : List Row
  summary_state : SummaryState
deriving DecidableEq, Repr

/-- The new row built by the VALUES clause of `Database.save_message`;
`is_summarised` takes its column default 0. -/
def newRow (message_id chat_id : Int) (sender mtype text : Option String)
    (date : String) : Row :=
  { id := message_id, chat_id := chat_id, sender := sender, type := mtype,
    text := text, date := date, is_summarised := false }

/-- `Database.save_message` (src/db.py): `INSERT OR IGNORE` into a table
declared with `id INTEGER PRIMARY KEY` and `UNIQUE(id, chat_id)`; the
insert is skipped exactly when one of the two uniqueness constraints would
be violated, and `cursor.rowcount > 0` is returned. -/
def save_message (rows : List Row) (message_id chat_id : Int)
    (sender mtype text : Option String) (date : String) : List Row × Bool :=
  if rows.any (fun r =>
      decide (r.id = message_id) ||
      (decide (r.id = message_id) && decide (r.chat_id = chat_id))) then
    (rows, false)
  else
    (rows ++ [newRow message_id chat_id sender mtype text date], true)

/-- One dict produced by `MessagesDB.get_new_messages`; `text` is coalesced
by `row['text'] or ''`. -/
structure Msg where
  id : Int
  chat_id : Int
  sender : Option String
  type : Option String
  text : String
  date : String
deriving DecidableEq, Repr

/-- The SELECT projection of `MessagesDB.get_new_messages`. -/
def rowToMsg (r : Row) : Msg :=
  { id := r.id, chat_id := r.chat_id, sender := r.sender, type := r.type,
    text := r.text.getD "", date := r.date }

/-- The `ORDER BY date ASC, id ASC, chat_id ASC` comparison of
`MessagesDB.get_new_messages`. -/
def msgLeP (a b : Msg) : Prop :=
  strLt a.date b.date = true ∨
    (a.date = b.date ∧ (a.id < b.id ∨ (a.id = b.id ∧ a.chat_id ≤ b.chat_id)))

instance : DecidableRel msgLeP := fun a b => by
  unfold msgLeP; infer_instance

/-- `MessagesDB.get_new_messages` (src/telegram_bot/db_utils.py): all rows
with `is_summarised = 0`, ordered by `(date, id, chat_id)` ascending,
projected to message dicts. -/
def get_new_messages (rows : List Row) : List Msg :=
  List.insertionSort msgLeP ((rows.filter (fun r => !r.is_summarised)).map rowToMsg)

/-- One `UPDATE messages SET is_summarised = 1 WHERE id = ? AND chat_id = ?`
statement, as executed per key by `cursor.executemany`. -/
def markOne (rows : List Row) (key : Int × Int) : List Row :=
  rows.map (fun r =>
    if r.id = key.1 ∧ r.chat_id = key.2 then { r with is_summarised := true } else r)

/-- `MessagesDB.mark_messages_as_summarised` (src/telegram_bot/db_utils.py):
early return on an empty key list, otherwise `executemany` of the UPDATE
over the keys, committed as one transaction. -/
def mark_messages_as_summarised (rows : List Row) (message_ids : List (Int × Int)) :
    List Row :=
  if message_ids.isEmpty then rows else message_ids.foldl markOne rows

/-- `MessagesDB.update_last_processed` (src/telegram_bot/db_utils.py):
overwrites the fields of the singleton `summary_state` row; `updated_at`
is set to CURRENT_TIMESTAMP, passed in here as `now`. -/
def update_last_processed (st : SummaryState) (last_date : String)
    (last_id last_chat_id : Int) (now : Int) : SummaryState :=
  { st with
    last_processed_date := last_date, last_processed_id := last_id,
    last_processed_chat_id := last_chat_id, updated_at := now }

/-- Python exception values observable around `create_summary`
(src/ai/gigachat.py): `GigaChatError` and its subclasses, `ValueError`,
and any other `Exception`. -/
inductive PyError where
  | gigaChatError (msg : String)
  | valueError (msg : String)
  | otherError (msg : String)
deriving DecidableEq, Repr

/-- Oracle for the network exchange performed by `chat_completion`
(OAuth request plus chat POST): the summarizer is an external collaborator.
`response content` is a successful answer whose first choice carries
`content`, with the empty string standing for absent or empty content. -/
inductive NetResult where
  | authFail
  | httpFail (status : Nat)
  | netFail
  | response (content : String)
deriving DecidableEq, Repr

/-- `chat_completion` (src/ai/gigachat.py): raises `ValueError` on an empty
or whitespace-only user message, wraps auth failures, HTTP errors, request
errors and content-free answers into `GigaChatError`s, and otherwise
returns the content. -/
def chat_completion (user_message : String) (_system_message : Option String)
    (net : NetResult) : Except PyError String :=
  if user_message = "" ∨ pyStrip user_message = "" then
    Except.error (PyError.valueError "empty user message")
  else
    match net with
    | NetResult.authFail => Except.error (PyError.gigaChatError "auth")
    | NetResult.httpFail s => Except.error (PyError.gigaChatError ("http " ++ toString s))
    | NetResult.netFail => Except.error (PyError.gigaChatError "request")
    | NetResult.response c =>
        if c = "" then Except.error (PyError.gigaChatError "no content")
        else Except.ok c

/-- The per-message body cap in `format_messages_for_summary`. -/
def perMessageCap : Nat := 300

/-- The `max_length` prompt bound in `create_summary`. -/
def max_length : Nat := 10000

/-- The marker appended on prompt truncation in `create_summary`. -/
def truncMarker : String := "\n\n[... текст обрезан ...]"

/-- Rendering of `msg.get('sender', 'Неизвестный')` inside the message
loop: the `sender` key is always present in the dicts built by
`get_new_messages`, so a `None` value reaches the f-string, which renders
it as the literal string `None`. -/
def senderStr (m : Msg) : String :=
  match m.sender with
  | some s => s
  | none => "None"

/-- First-appearance order of the chat ids of the backlog: the key order of
the `chats` dict built by `format_messages_for_summary`. -/
def chatIds : List Msg → List Int
  | [] => []
  | m :: rest => m.chat_id :: (chatIds rest).filter (fun c => c != m.chat_id)

/-- The group `chats[chat_id]`: the backlog messages of one chat, in
backlog order. -/
def chatGroup (messages : List Msg) (cid : Int) : List Msg :=
  messages.filter (fun m => m.chat_id == cid)

/-- Chat title resolution of `format_messages_for_summary`: the first
truthy sender name of the group, falling back to a synthesized label. -/
def chatName (cid : Int) (group : List Msg) : String :=
  let senders := group.filterMap (fun m =>
    match m.sender with
    | some s => if s = "" then none else some s
    | none => none)
  match senders with
  | [] => "Чат " ++ toString cid
  | s :: _ => if s = "" then "Чат " ++ toString cid else s

/-- The body of the message loop of `format_messages_for_summary`: strip
the text, skip empty results, truncate stripped bodies longer than 300
characters with an ellipsis, render `sender: text`. -/
def msgLine (m : Msg) : Option String :=
  let text := pyStrip m.text
  if text = "" then none
  else some (senderStr m ++ ": " ++
    (if perMessageCap < text.length then pyTake text perMessageCap ++ "..." else text))

/-- The parts that one chat contributes to `text_parts`: its section header
followed by the lines of its messages. -/
def chatSection (messages : List Msg) (cid : Int) : List String :=
  ("\n--- " ++ chatName cid (chatGroup messages cid) ++ " (чат ID: " ++ toString cid ++ ") ---")
    :: (chatGroup messages cid).filterMap msgLine

/-- Concatenation of the chat sections over the dict iteration order. -/
def sectionsFor (messages : List Msg) : List Int → List String
  | [] => []
  | cid :: rest => chatSection messages cid ++ sectionsFor messages rest

/-- The full `text_parts` list: the chat-count header followed by all chat
sections. -/
def formatParts (messages : List Msg) : List String :=
  ("Сообщения из " ++ toString (chatIds messages).length ++ " чатов:\n")
    :: sectionsFor messages (chatIds messages)

/-- `format_messages_for_summary` (src/telegram_bot/summary.py). -/
def format_messages_for_summary (messages : List Msg) : String :=
  if messages.isEmpty then "" else "\n".intercalate (formatParts messages)

/-- The prompt-length guard of `create_summary`: texts longer than
`max_length` are cut to `max_length` characters and the truncation marker
is appended. -/
def truncateForApi (t : String) : String :=
  if max_length < t.length then pyTake t max_length ++ truncMarker else t

/-- The system message of `create_summary` (its content is irrelevant to
every claim; it is non-empty). -/
def systemMessage : String :=
  "Ты – ассистент, который создает краткие и информативные выжимки (саммари) из множества сообщений из разных чатов Telegram."

/-- The part of the `user_message` f-string before `formatted_text`. -/
def promptHead : String :=
  "Создай краткую общую выжимку из следующих сообщений из разных чатов Telegram. \nПроанализируй ВСЕ сообщения из ВСЕХ чатов и создай единое саммари, объединяя похожие темы:\n\n"

/-- The part of the `user_message` f-string after `formatted_text`. -/
def promptTail : String :=
  "\n\nСделай структурированную выжимку, выделив основные темы и важные моменты из ВСЕХ чатов. Не группируй по чатам, а объединяй информацию."

/-- The `user_message` built by `create_summary` around the (possibly
truncated) formatted text. -/
def userMessage (formatted : String) : String :=
  promptHead ++ formatted ++ promptTail

/-- The arguments with which `create_summary` invokes `chat_completion`,
when it reaches the call: `none` when a guard clause returns early. -/
def create_summary_call (messages : List Msg) : Option (String × String) :=
  if messages.isEmpty then none
  else
    let formatted := format_messages_for_summary messages
    if formatted = "" ∨ pyStrip formatted = "" then none
    else some (userMessage (truncateForApi formatted), systemMessage)

/-- The body of `create_summary` before exception handling: `.error e`
exactly when the `chat_completion` call raises `e`. -/
def create_summary_body (messages : List Msg) (net : NetResult) :
    Except PyError (Option String) :=
  match create_summary_call messages with
  | none => Except.ok none
  | some (u, s) => (chat_completion u (some s) net).map some

/-- `create_summary` (src/telegram_bot/summary.py): the `except
GigaChatError` handler and the catch-all `except Exception` handler both
turn the exception into the return value `None`. -/
def create_summary (messages : List Msg) (net : NetResult) : Option String :=
  match create_summary_body messages net with
  | Except.ok r => r
  | Except.error (PyError.gigaChatError _) => none
  | Except.error _ => none

/-- Python truthiness of the `summary` value tested by
`generate_summary_from_db`: `None` and the empty string are falsy. -/
def summaryTruthy : Option String → Bool
  | none => false
  | some s => !(s == "")

/-- `generate_summary_from_db` (src/telegram_bot/summary.py): one pipeline
run against the network oracle `net`; `now` is CURRENT_TIMESTAMP at commit
time. Returns the store after the run together with the returned
`(summary, count)` pair. -/
def generate_summary_from_db (db : Store) (net : NetResult) (now : Int) :
    Store × Option String × Nat :=
  match get_new_messages db.messages with
  | [] => (db, none, 0)
  | m :: ms =>
      let summary := create_summary (m :: ms) net
      if summaryTruthy summary then
        let message_ids := (m :: ms).map (fun x => (x.id, x.chat_id))
        let last := (m :: ms).getLast (List.cons_ne_nil m ms)
        ({ messages := mark_messages_as_summarised db.messages message_ids,
           summary_state :=
             update_last_processed db.summary_state last.date last.id last.chat_id now },
         summary, (m :: ms).length)
      else
        (db, none, (m :: ms).length)

/-- One scheduled run viewed as a state transformer on the store. -/
def runStep (db : Store) (e : NetResult × Int) : Store :=
  (generate_summary_from_db db e.1 e.2).1

/-- The stores visited by a sequence of scheduled runs, the initial store
included. -/
def runStates (db : Store) : List (NetResult × Int) → List Store
  | [] => [db]
  | e :: es => db :: runStates (runStep db e) es

/-- The `is_summarised` flag of the i-th row of a store (`true` when the
row does not exist, so that absent rows contribute no transition). -/
def flagAt (i : Nat) (s : Store) : Bool :=
  (s.messages[i]?.map Row.is_summarised).getD true

/-- The flag history of the i-th row along a sequence of runs. -/
def flagTrace (db : Store) (events : List (NetResult × Int)) (i : Nat) : List Bool :=
  (runStates db events).map (flagAt i)

/-- Number of `false` to `true` transitions between adjacent entries. -/
def countFlips : List Bool → Nat
  | [] => 0
  | [_] => 0
  | a :: b :: rest => (if a = false ∧ b = true then 1 else 0) + countFlips (b :: rest)

/-! ### Order lemmas for the backlog sort -/

theorem lexLt_trans : ∀ a b c : List Char,
    lexLt a b = true → lexLt b c = true → lexLt a c = true := by
  intro a
  induction a with
  | nil =>
    intro b c hab hbc
    cases b with
    | nil => simp [lexLt] at hab
    | cons b bs =>
      cases c with
      | nil => simp [lexLt] at hbc
      | cons c cs => simp [lexLt]
  | cons a as ih =>
    intro b c hab hbc
    cases b with
    | nil => simp [lexLt] at hab
    | cons b bs =>
      cases c with
      | nil => simp [lexLt] at hbc
      | cons c cs =>
        simp only [lexLt] at hab hbc ⊢
        by_cases h1 : a < b
        · by_cases h2 : b < c
          · simp [lt_trans h1 h2]
          · by_cases h3 : c < b
            · simp [h2, h3] at hbc
            · have hbceq : b = c := le_antisymm (not_lt.mp h3) (not_lt.mp h2)
              subst hbceq
              simp [h1]
        · by_cases h4 : b < a
          · simp [h1, h4] at hab
          · have habeq : a = b := le_antisymm (not_lt.mp h4) (not_lt.mp h1)
            subst habeq
            simp only [lt_irrefl, if_false] at hab
            by_cases h2 : a < c
            · simp [h2]
            · by_cases h3 : c < a
              · simp [h2, h3] at hbc
              · have haceq : a = c := le_antisymm (not_lt.mp h3) (not_lt.mp h2)
                subst haceq
                simp only [lt_irrefl, if_false] at hbc ⊢
                exact ih bs cs hab hbc

theorem lexLt_eq_of_both_false : ∀ a b : List Char,
    lexLt a b = false → lexLt b a = false → a = b := by
  intro a
  induction a with
  | nil =>
    intro b hab _
    cases b with
    | nil => rfl
    | cons b bs => simp [lexLt] at hab
  | cons a as ih =>
    intro b hab hba
    cases b with
    | nil => simp [lexLt] at hba
    | cons b bs =>
      simp only [lexLt] at hab hba
      by_cases h1 : a < b
      · simp [h1] at hab
      · by_cases h2 : b < a
        · simp [h1, h2] at hba
        · have habeq : a = b := le_antisymm (not_lt.mp h2) (not_lt.mp h1)
          subst habeq
          simp only [lt_irrefl, if_false] at hab hba
          rw [ih bs hab hba]

theorem strLt_eq_of_both_false (s t : String) (h1 : strLt s t = false)
    (h2 : strLt t s = false) : s = t := by
  cases s with
  | mk sd =>
    cases t with
    | mk td =>
      have : sd = td := lexLt_eq_of_both_false sd td h1 h2
      rw [this]

instance : IsTotal Msg msgLeP := by
  constructor
  intro a b
  unfold msgLeP
  by_cases hd1 : strLt a.date b.date = true
  · exact Or.inl (Or.inl hd1)
  · by_cases hd2 : strLt b.date a.date = true
    · exact Or.inr (Or.inl hd2)
    · have hdd : a.date = b.date :=
        strLt_eq_of_both_false _ _ (Bool.not_eq_true _ ▸ hd1) (Bool.not_eq_true _ ▸ hd2)
      rcases lt_trichotomy a.id b.id with h | h | h
      · exact Or.inl (Or.inr ⟨hdd, Or.inl h⟩)
      · rcases le_total a.chat_id b.chat_id with h2 | h2
        · exact Or.inl (Or.inr ⟨hdd, Or.inr ⟨h, h2⟩⟩)
        · exact Or.inr (Or.inr ⟨hdd.symm, Or.inr ⟨h.symm, h2⟩⟩)
      · exact Or.inr (Or.inr ⟨hdd.symm, Or.inl h⟩)

instance : IsTrans Msg msgLeP := by
  constructor
  intro a b c hab hbc
  unfold msgLeP at hab hbc ⊢
  rcases hab with h1 | ⟨e1, h1⟩
  · rcases hbc with h2 | ⟨e2, _⟩
    · exact Or.inl (lexLt_trans _ _ _ h1 h2)
    · exact Or.inl (by rw [← e2]; exact h1)
  · rcases hbc with h2 | ⟨e2, h2⟩
    · exact Or.inl (by rw [e1]; exact h2)
    · refine Or.inr ⟨e1.trans e2, ?_⟩
      rcases h1 with h1 | ⟨f1, h1⟩
      · rcases h2 with h2 | ⟨f2, _⟩
        · exact Or.inl (h1.trans h2)
        · exact Or.inl (f2 ▸ h1)
      · rcases h2 with h2 | ⟨f2, h2⟩
        · exact Or.inl (f1 ▸ h2)
        · exact Or.inr ⟨f1.trans f2, h1.trans h2⟩

/-! ### Effect of `mark_messages_as_summarised` -/

theorem foldl_markOne_eq_map (keys : List (Int × Int)) (rows : List Row) :
    keys.foldl markOne rows
      = rows.map (fun r =>
          if (r.id, r.chat_id) ∈ keys then { r with is_summarised := true } else r) := by
  induction keys generalizing rows with
  | nil => simp
  | cons k ks ih =>
    simp only [List.foldl_cons]
    rw [ih (markOne rows k)]
    unfold markOne
    rw [List.map_map]
    congr 1
    funext r
    by_cases h1 : r.id = k.1 ∧ r.chat_id = k.2
    · have hk : (r.id, r.chat_id) = k := by
        cases k
        simp only [Prod.mk.injEq]
        exact ⟨h1.1, h1.2⟩
      by_cases h2 : (r.id, r.chat_id) ∈ ks <;>
        simp [Function.comp, h1, h2, hk, List.mem_cons]
    · have hk : ¬((r.id, r.chat_id) = k) := by
        cases k
        simp only [Prod.mk.injEq]
        intro hc
        exact h1 ⟨hc.1, hc.2⟩
      by_cases h2 : (r.id, r.chat_id) ∈ ks <;>
        simp [Function.comp, h1, h2, hk, List.mem_cons]

theorem mark_eq_map (rows : List Row) (keys : List (Int × Int)) :
    mark_messages_as_summarised rows keys
      = rows.map (fun r =>
          if (r.id, r.chat_id) ∈ keys then { r with is_summarised := true } else r) := by
  unfold mark_messages_as_summarised
  cases keys with
  | nil => simp
  | cons k ks => simpa using foldl_markOne_eq_map (k :: ks) rows

theorem mark_flag_mono (rows : List Row) (keys : List (Int × Int)) (i : Nat)
    (h : (rows[i]?.map Row.is_summarised).getD true = true) :
    ((mark_messages_as_summarised rows keys)[i]?.map Row.is_summarised).getD true = true := by
  rw [mark_eq_map, List.getElem?_map]
  cases hr : rows[i]? with
  | none => simp
  | some r =>
    rw [hr] at h
    simp only [Option.map_some', Option.getD_some] at h
    by_cases hmem : (r.id, r.chat_id) ∈ keys <;>
      simp [hmem, h]

/-! ### Snapshot membership -/

theorem mem_get_new_messages (rows : List Row) (m : Msg) :
    m ∈ get_new_messages rows
      ↔ m ∈ (rows.filter (fun r => !r.is_summarised)).map rowToMsg :=
  (List.perm_insertionSort msgLeP _).mem_iff

/-! ### Runs never reset the processed flag -/

theorem run_messages_cases (db : Store) (net : NetResult) (now : Int) :
    (generate_summary_from_db db net now).1.messages = db.messages
    ∨ ∃ keys, (generate_summary_from_db db net now).1.messages
        = mark_messages_as_summarised db.messages keys := by
  cases hsnap : get_new_messages db.messages with
  | nil => left; simp [generate_summary_from_db, hsnap]
  | cons m ms =>
    by_cases hs : summaryTruthy (create_summary (m :: ms) net) = true
    · right
      refine ⟨(m :: ms).map (fun x => (x.id, x.chat_id)), ?_⟩
      simp [generate_summary_from_db, hsnap, hs]
    · left
      simp [generate_summary_from_db, hsnap, hs]

theorem flagAt_mono (db : Store) (e : NetResult × Int) (i : Nat)
    (h : flagAt i db = true) : flagAt i (runStep db e) = true := by
  unfold flagAt runStep at *
  rcases run_messages_cases db e.1 e.2 with hc | ⟨keys, hc⟩
  · rw [hc]; exact h
  · rw [hc]; exact mark_flag_mono _ _ _ h

theorem chain_flagTrace (events : List (NetResult × Int)) (db : Store) (i : Nat) :
    List.Chain' (fun a b => a = true → b = true) (flagTrace db events i) := by
  induction events generalizing db with
  | nil => simp [flagTrace, runStates]
  | cons e es ih =>
    have hstep : flagTrace db (e :: es) i
        = flagAt i db :: flagTrace (runStep db e) es i := rfl
    rw [hstep, List.chain'_cons']
    constructor
    · intro y hy hflag
      have hhead : (flagTrace (runStep db e) es i).head?
          = some (flagAt i (runStep db e)) := by
        cases es <;> rfl
      rw [hhead] at hy
      simp only [Option.mem_def, Option.some.injEq] at hy
      rw [← hy]
      exact flagAt_mono db e i hflag
    · exact ih (runStep db e)

theorem countFlips_le_one_of_chain : ∀ l : List Bool,
    List.Chain' (fun a b => a = true → b = true) l →
    countFlips l ≤ 1 ∧ (l.head? = some true → countFlips l = 0) := by
  intro l
  induction l with
  | nil => simp [countFlips]
  | cons a t ih =>
    cases t with
    | nil => intro _; simp [countFlips]
    | cons b t2 =>
      intro hchain
      rw [List.chain'_cons] at hchain
      obtain ⟨hab, hchain2⟩ := hchain
      obtain ⟨ih1, ih0⟩ := ih hchain2
      constructor
      · by_cases ha : a = true
        · have hb := hab ha
          have h0 := ih0 (by simp [hb])
          simp [countFlips, ha, h0]
        · have ha' : a = false := by
            cases a
            · rfl
            · exact absurd rfl ha
          by_cases hb : b = true
          · have h0 := ih0 (by simp [hb])
            subst hb
            simp [countFlips, ha', h0]
          · have hb' : b = false := by
              cases b
              · rfl
              · exact absurd rfl hb
            simpa [countFlips, ha', hb'] using ih1
      · intro hhead
        simp only [List.head?_cons, Option.some.injEq] at hhead
        have hb := hab hhead
        have h0 := ih0 (by simp [hb])
        simp [countFlips, hhead, h0]

theorem countFlips_flagTrace_le_one (db : Store) (events : List (NetResult × Int))
    (i : Nat) : countFlips (flagTrace db events i) ≤ 1 :=
  (countFlips_le_one_of_chain _ (chain_flagTrace events db i)).1

/-! ### Formatter membership -/

theorem chat_id_mem_chatIds (messages : List Msg) (m : Msg) (hm : m ∈ messages) :
    m.chat_id ∈ chatIds messages := by
  induction messages with
  | nil => cases hm
  | cons x rest ih =>
    rcases List.mem_cons.mp hm with h | h
    · rw [h]; simp [chatIds]
    · by_cases hc : m.chat_id = x.chat_id
      · simp [chatIds, hc]
      · simp only [chatIds, List.mem_cons]
        right
        rw [List.mem_filter]
        exact ⟨ih h, by simp [hc]⟩

theorem mem_sectionsFor (messages : List Msg) (x : String) :
    ∀ cids : List Int, ∀ cid ∈ cids,
      x ∈ chatSection messages cid → x ∈ sectionsFor messages cids := by
  intro cids
  induction cids with
  | nil => intro cid h; cases h
  | cons c rest ih =>
    intro cid hcid hx
    simp only [sectionsFor]
    rcases List.mem_cons.mp hcid with h | h
    · rw [← h]; exact List.mem_append_left _ hx
    · exact List.mem_append_right _ (ih cid h hx)

theorem msgLine_mem_formatParts (messages : List Msg) (m : Msg) (l : String)
    (hm : m ∈ messages) (hl : msgLine m = some l) : l ∈ formatParts messages := by
  have h1 : m ∈ chatGroup messages m.chat_id := by
    rw [chatGroup, List.mem_filter]
    exact ⟨hm, by simp⟩
  have h2 : l ∈ chatSection messages m.chat_id := by
    simp only [chatSection]
    exact List.mem_cons.mpr (Or.inr (List.mem_filterMap.mpr ⟨m, h1, hl⟩))
  have h3 := mem_sectionsFor messages l (chatIds messages) m.chat_id
    (chat_id_mem_chatIds messages m hm) h2
  simp only [formatParts]
  exact List.mem_cons.mpr (Or.inr h3)

/-! ### Concrete sample data used by witnesses and counterexamples -/

def sampleRowA : Row :=
  { id := 1, chat_id := 10, sender := some "Алиса", type := some "Chat",
    text := some "привет, как дела?", date := "2024-01-01 10:00:00", is_summarised := false }

def sampleRowB : Row :=
  { id := 2, chat_id := 11, sender := some "Боб", type := some "Channel",
    text := some "новости дня", date := "2024-01-01 11:00:00", is_summarised := false }

def sampleRowDone : Row :=
  { id := 3, chat_id := 10, sender := some "Ева", type := some "Chat",
    text := some "старое сообщение", date := "2023-12-31 09:00:00", is_summarised := true }

def sampleState : SummaryState :=
  { last_processed_date := "1970-01-01", last_processed_id := 0,
    last_processed_chat_id := 0, updated_at := 0 }

def sampleDb : Store :=
  { messages := [sampleRowA, sampleRowB, sampleRowDone], summary_state := sampleState }

/-! ### Claims -/

/-- C9: `mark_messages_as_summarised` sets `is_summarised = true` for
exactly the rows whose `(id, chat_id)` key occurs in the given key list,
leaves every other row and every other field of the marked rows unchanged,
silently ignores keys that match no stored row, and is idempotent:
re-marking already-marked rows changes nothing and is not an error. -/
theorem C9_mark_processed_exact_frame_idempotent (rows : List Row)
    (keys : List (Int × Int)) :
    mark_messages_as_summarised rows keys
      = rows.map (fun r =>
          if (r.id, r.chat_id) ∈ keys then { r with is_summarised := true } else r)
    ∧ mark_messages_as_summarised (mark_messages_as_summarised rows keys) keys
      = mark_messages_as_summarised rows keys := by
  refine ⟨mark_eq_map rows keys, ?_⟩
  rw [mark_eq_map rows keys, mark_eq_map, List.map_map]
  congr 1
  funext r
  by_cases h : (r.id, r.chat_id) ∈ keys <;> simp [Function.comp, h]

/-- C4: `get_new_messages` returns exactly the rows with
`is_summarised = false`, projected to message dicts and sorted ascending
by `(date, id, chat_id)`; when nothing is pending it returns the empty
list rather than failing. -/
theorem C4_backlog_selection (rows : List Row) :
    List.Perm (get_new_messages rows)
        ((rows.filter (fun r => !r.is_summarised)).map rowToMsg)
    ∧ List.Sorted msgLeP (get_new_messages rows)
    ∧ ((∀ r ∈ rows, r.is_summarised = true) → get_new_messages rows = []) := by
  refine ⟨List.perm_insertionSort msgLeP _, List.sorted_insertionSort msgLeP _, ?_⟩
  intro h
  have hf : rows.filter (fun r => !r.is_summarised) = [] := by
    rw [List.filter_eq_nil_iff]
    intro r hr
    simp [h r hr]
  unfold get_new_messages
  rw [hf]
  rfl

/-- C4 witness: a store whose only row is already summarised yields the
empty backlog. -/
theorem C4_witness : get_new_messages [sampleRowDone] = [] :=
  (C4_backlog_selection [sampleRowDone]).2.2 (by decide)

/-- C10: every exception raised inside the body of `create_summary` —
`GigaChatError`s from the remote call as well as any other exception — is
caught by its two handlers and surfaced as the return value `None`; the
caller's only failure signal is the `None` result. -/
theorem C10_create_summary_catches_all (messages : List Msg) (net : NetResult)
    (e : PyError) (h : create_summary_body messages net = Except.error e) :
    create_summary messages net = none := by
  unfold create_summary
  rw [h]
  cases e <;> rfl

/-- C10 witness: an authentication failure of the remote call surfaces as
`None`. -/
theorem C10_witness :
    create_summary [rowToMsg sampleRowA] NetResult.authFail = none :=
  C10_create_summary_catches_all _ _ (PyError.gigaChatError "auth") rfl

/-- C2: when the summarization call of a run over a non-empty backlog
fails, the store is left exactly unchanged — no flag flips, the checkpoint
stays — the backlog selected immediately after the run is the same, and
the run reports `None` together with the count of messages that would have
been processed. -/
theorem C2_failed_run_is_pure (db : Store) (net : NetResult) (now : Int)
    (hne : get_new_messages db.messages ≠ [])
    (hfail : summaryTruthy (create_summary (get_new_messages db.messages) net) = false) :
    (generate_summary_from_db db net now).1 = db
    ∧ (generate_summary_from_db db net now).2.1 = none
    ∧ (generate_summary_from_db db net now).2.2 = (get_new_messages db.messages).length
    ∧ get_new_messages (generate_summary_from_db db net now).1.messages
        = get_new_messages db.messages := by
  cases hsnap : get_new_messages db.messages with
  | nil => exact absurd hsnap hne
  | cons m ms =>
    rw [hsnap] at hfail
    refine ⟨?_, ?_, ?_, ?_⟩ <;> simp [generate_summary_from_db, hsnap, hfail]

/-- C2 witness: a network failure leaves a one-row store untouched. -/
theorem C2_witness :
    (generate_summary_from_db { messages := [sampleRowA], summary_state := sampleState }
        NetResult.netFail 0).1
      = { messages := [sampleRowA], summary_state := sampleState } :=
  (C2_failed_run_is_pure _ NetResult.netFail 0 (by decide) (by decide)).1

/-- C8: after a successful run over a non-empty backlog snapshot the
singleton checkpoint is rewritten, via `update_last_processed`, to the
`(date, id, chat_id)` of the snapshot's last row in selection order (with
`updated_at` set to commit time); in every other case of a run — empty
backlog or failed call — the checkpoint is left unchanged. -/
theorem C8_checkpoint_commit (db : Store) (net : NetResult) (now : Int) :
    (∀ last : Msg, (get_new_messages db.messages).getLast? = some last →
      summaryTruthy (create_summary (get_new_messages db.messages) net) = true →
      (generate_summary_from_db db net now).1.summary_state
        = update_last_processed db.summary_state last.date last.id last.chat_id now)
    ∧ ((get_new_messages db.messages = []
          ∨ summaryTruthy (create_summary (get_new_messages db.messages) net) = false) →
      (generate_summary_from_db db net now).1.summary_state = db.summary_state) := by
  constructor
  · intro last hlast hsucc
    cases hsnap : get_new_messages db.messages with
    | nil => rw [hsnap] at hlast; simp at hlast
    | cons m ms =>
      rw [hsnap] at hlast hsucc
      have hgl : (m :: ms).getLast (List.cons_ne_nil m ms) = last := by
        rw [List.getLast?_eq_getLast (m :: ms) (List.cons_ne_nil m ms)] at hlast
        exact Option.some_inj.mp hlast
      simp only [generate_summary_from_db, hsnap, hsucc, if_true]
      rw [hgl]
  · intro hcase
    rcases hcase with hnil | hfail
    · simp [generate_summary_from_db, hnil]
    · cases hsnap : get_new_messages db.messages with
      | nil => simp [generate_summary_from_db, hsnap]
      | cons m ms =>
        rw [hsnap] at hfail
        simp [generate_summary_from_db, hsnap, hfail]

/-- C8 witness: a successful run over the sample store commits the
checkpoint to the last snapshot row. -/
theorem C8_witness :
    (generate_summary_from_db sampleDb (NetResult.response "Сводка") 7).1.summary_state
      = update_last_processed sampleDb.summary_state (rowToMsg sampleRowB).date
          (rowToMsg sampleRowB).id (rowToMsg sampleRowB).chat_id 7 :=
  (C8_checkpoint_commit sampleDb (NetResult.response "Сводка") 7).1
    (rowToMsg sampleRowB) (by decide) (by decide)

/-- When `create_summary` reaches the remote call, its user message wraps
the bounded formatted text and its system message is the fixed one. -/
theorem create_summary_call_eq (messages : List Msg) (u s : String)
    (hcall : create_summary_call messages = some (u, s)) :
    u = userMessage (truncateForApi (format_messages_for_summary messages))
    ∧ s = systemMessage := by
  unfold create_summary_call at hcall
  split at hcall
  · exact Option.noConfusion hcall
  · have hcall2 :
        (if format_messages_for_summary messages = ""
            ∨ pyStrip (format_messages_for_summary messages) = "" then none
         else some (userMessage (truncateForApi (format_messages_for_summary messages)),
                    systemMessage))
          = some (u, s) := hcall
    split at hcall2
    · exact Option.noConfusion hcall2
    · rw [Option.some_inj, Prod.mk.injEq] at hcall2
      exact ⟨hcall2.1.symm, hcall2.2.symm⟩

/-- C6: whenever the formatted text exceeds `max_length`, the text
embedded in the prompt is its hard truncation to `max_length` characters
with the truncation marker appended — the marker is never dropped — and
whenever `create_summary` reaches the remote call, its user message is
built around exactly this bounded text. -/
theorem C6_prompt_truncation (t : String) (h : max_length < t.length) :
    truncateForApi t = pyTake t max_length ++ truncMarker
    ∧ (∃ p : String, truncateForApi t = p ++ truncMarker)
    ∧ (∀ (messages : List Msg) (u s : String),
        create_summary_call messages = some (u, s) →
        u = userMessage (truncateForApi (format_messages_for_summary messages))) := by
  refine ⟨by simp [truncateForApi, h], ⟨pyTake t max_length, by simp [truncateForApi, h]⟩, ?_⟩
  intro messages u s hcall
  exact (create_summary_call_eq messages u s hcall).1

/-- Concrete over-long formatted text for the C6 witness. -/
def bigText : String := String.mk (List.replicate 10001 'a')

/-- C6 witness: a 10001-character text is truncated to 10000 characters
plus the marker. -/
theorem C6_witness :
    max_length < bigText.length
    ∧ truncateForApi bigText = pyTake bigText max_length ++ truncMarker := by
  have hlen : max_length < bigText.length := by
    have h1 : bigText.length = 10001 := by
      unfold bigText
      rw [String.length_mk, List.length_replicate]
    rw [h1]
    norm_num [max_length]
  exact ⟨hlen, (C6_prompt_truncation bigText hlen).1⟩

/-- A backlog message whose body is whitespace-only. -/
def wsMsg : Msg :=
  { id := 1, chat_id := 1, sender := some "Алиса", type := some "Chat",
    text := "   ", date := "2024-01-01 10:00:00" }

/-- C5 fails as stated: a non-empty backlog whose only body is
whitespace-only still formats to a non-empty string (the chat-count header
and section title survive), and `create_summary` does invoke the
summarizer on it. -/
theorem C5_counterexample :
    (∀ m ∈ [wsMsg], pyStrip m.text = "")
    ∧ format_messages_for_summary [wsMsg] ≠ ""
    ∧ (create_summary_call [wsMsg]).isSome = true :=
  ⟨by decide, by decide, by decide⟩

/-- C5 (amended): formatting the empty backlog yields the empty string and
the summarizer is not invoked on it; moreover whenever `create_summary`
does invoke the summarizer, the user message it sends is non-empty, so
`summarize("")` is never invoked. (A non-empty backlog all of whose bodies
are whitespace-only, however, formats to a non-empty header and is sent.)
-/
theorem C5_amended_empty_input_law :
    format_messages_for_summary [] = ""
    ∧ create_summary_call [] = none
    ∧ (∀ (messages : List Msg) (u s : String),
        create_summary_call messages = some (u, s) → u ≠ "") := by
  refine ⟨rfl, rfl, ?_⟩
  intro messages u s hcall
  rw [(create_summary_call_eq messages u s hcall).1]
  intro hempty
  have hlen := congrArg String.length hempty
  simp only [userMessage, String.length_append] at hlen
  have hpos : 0 < promptHead.length := by decide
  have hnil : ("" : String).length = 0 := rfl
  rw [hnil] at hlen
  omega

/-- C5 witness: the third conjunct applied to the whitespace-only sample
backlog, whose prompt is indeed sent and non-empty. -/
theorem C5_amended_witness :
    create_summary_call [wsMsg]
        = some (userMessage (truncateForApi (format_messages_for_summary [wsMsg])),
                systemMessage)
    ∧ userMessage (truncateForApi (format_messages_for_summary [wsMsg])) ≠ "" :=
  ⟨by decide,
    C5_amended_empty_input_law.2.2 [wsMsg]
      (userMessage (truncateForApi (format_messages_for_summary [wsMsg])))
      systemMessage (by decide)⟩

/-- A stored row that blocks re-use of `message_id` 1 by any other chat. -/
def clashRow : Row :=
  { id := 1, chat_id := 200, sender := none, type := none, text := none,
    date := "2024-01-01", is_summarised := false }

/-- C3 fails as stated: `id` alone is the table's INTEGER PRIMARY KEY, so
an insert whose `(message_id, chat_id)` pair is absent is nevertheless
ignored when some row already carries the same `message_id` under another
`chat_id` — the first insert of the pair `(1, 100)` below returns
`inserted = false` and stores no row for the pair. -/
theorem C3_counterexample :
    (∀ r ∈ [clashRow], ¬(r.id = 1 ∧ r.chat_id = 100))
    ∧ save_message [clashRow] 1 100 none none none "2024-01-02" = ([clashRow], false) :=
  ⟨by decide, by decide⟩

/-- C3 (amended): re-inserting an already-present `(message_id, chat_id)`
pair leaves the store unchanged and returns `inserted = false` — first
write wins, never an overwrite, never an error; and provided no stored row
carries the given `message_id` (deduplication is keyed on `message_id`
alone, `id` being the table's primary key), the first insert appends
exactly one row and returns `true`, and an immediate re-insert of the pair
returns `false` and leaves exactly one stored row for the pair. -/
theorem C3_amended_first_write_wins (rows : List Row) (message_id chat_id : Int)
    (sender mtype text : Option String) (date : String) :
    ((∃ r ∈ rows, r.id = message_id ∧ r.chat_id = chat_id) →
      save_message rows message_id chat_id sender mtype text date = (rows, false))
    ∧ ((∀ r ∈ rows, r.id ≠ message_id) →
      save_message rows message_id chat_id sender mtype text date
        = (rows ++ [newRow message_id chat_id sender mtype text date], true)
      ∧ (∀ (s2 t2 x2 : Option String) (d2 : String),
          save_message (rows ++ [newRow message_id chat_id sender mtype text date])
              message_id chat_id s2 t2 x2 d2
            = (rows ++ [newRow message_id chat_id sender mtype text date], false))
      ∧ ((rows ++ [newRow message_id chat_id sender mtype text date]).filter
            (fun r => decide (r.id = message_id ∧ r.chat_id = chat_id))).length = 1) := by
  constructor
  · rintro ⟨r, hr, h1, h2⟩
    unfold save_message
    rw [if_pos]
    exact List.any_eq_true.mpr ⟨r, hr, by simp [h1, h2]⟩
  · intro hfresh
    have hany : rows.any (fun r =>
        decide (r.id = message_id) ||
        (decide (r.id = message_id) && decide (r.chat_id = chat_id))) = false := by
      rw [List.any_eq_false]
      intro r hr
      simp [hfresh r hr]
    refine ⟨?_, ?_, ?_⟩
    · unfold save_message
      rw [if_neg (by simp [hany])]
    · intro s2 t2 x2 d2
      unfold save_message
      rw [if_pos]
      refine List.any_eq_true.mpr ⟨newRow message_id chat_id sender mtype text date,
        List.mem_append_right _ (List.mem_singleton.mpr rfl), by simp [newRow]⟩
    · rw [List.filter_append]
      have h1 : rows.filter (fun r => decide (r.id = message_id ∧ r.chat_id = chat_id)) = [] := by
        rw [List.filter_eq_nil_iff]
        intro r hr
        simp [hfresh r hr]
      rw [h1]
      simp [newRow]

/-- C3 witness: with an empty store, inserting the pair `(1, 10)` twice
stores the row once; the first call reports `true`, the second `false`. -/
theorem C3_witness :
    save_message [] 1 10 (some "Алиса") (some "Chat") (some "привет") "2024-01-01"
      = ([newRow 1 10 (some "Алиса") (some "Chat") (some "привет") "2024-01-01"], true)
    ∧ save_message [newRow 1 10 (some "Алиса") (some "Chat") (some "привет") "2024-01-01"]
        1 10 (some "Алиса") (some "Chat") (some "привет") "2024-01-01"
      = ([newRow 1 10 (some "Алиса") (some "Chat") (some "привет") "2024-01-01"], false) := by
  have h := (C3_amended_first_write_wins [] 1 10 (some "Алиса") (some "Chat")
    (some "привет") "2024-01-01").2 (by decide)
  refine ⟨?_, ?_⟩
  · simpa using h.1
  · simpa using h.2.1 (some "Алиса") (some "Chat") (some "привет") "2024-01-01"

/-- A 301-character body: one space followed by 300 `a`s. -/
def padMsg : Msg :=
  { id := 5, chat_id := 7, sender := some "Алиса", type := some "Chat",
    text := " " ++ String.mk (List.replicate 300 'a'), date := "2024-01-01 10:00:00" }

/-- C7 fails as stated: the 300-character cap is applied to the
whitespace-stripped body, not the body. The 301-character body of `padMsg`
strips to 300 characters, so its line is rendered with no truncation and
no ellipsis — the rendering the claim prescribes for it does not occur in
the formatted parts — and the line that does occur is not the unmodified
body either. -/
theorem C7_counterexample :
    300 < padMsg.text.length
    ∧ msgLine padMsg = some ("Алиса: " ++ String.mk (List.replicate 300 'a'))
    ∧ ("Алиса: " ++ (pyTake padMsg.text 300 ++ "...")) ∉ formatParts [padMsg]
    ∧ ("Алиса: " ++ String.mk (List.replicate 300 'a')) ∈ formatParts [padMsg] :=
  ⟨by decide, by decide, by decide, by decide⟩

/-- C7 (amended): the formatter strips each body first; a message whose
stripped body is longer than 300 characters contributes the line
`sender: <stripped body cut to 300>...` to the formatted parts, and a
message whose non-empty stripped body has at most 300 characters
contributes its stripped body unmodified. -/
theorem C7_amended_per_message_cap (messages : List Msg) (m : Msg)
    (hm : m ∈ messages) (hne : pyStrip m.text ≠ "") :
    (perMessageCap < (pyStrip m.text).length →
      (senderStr m ++ ": " ++ (pyTake (pyStrip m.text) perMessageCap ++ "..."))
        ∈ formatParts messages)
    ∧ ((pyStrip m.text).length ≤ perMessageCap →
      (senderStr m ++ ": " ++ pyStrip m.text) ∈ formatParts messages) := by
  constructor
  · intro hlong
    refine msgLine_mem_formatParts messages m _ hm ?_
    simp only [msgLine]
    rw [if_neg hne, if_pos hlong]
  · intro hshort
    refine msgLine_mem_formatParts messages m _ hm ?_
    simp only [msgLine]
    rw [if_neg hne, if_neg (not_lt.mpr hshort)]

/-- A message whose body is 301 `a`s. -/
def longMsg : Msg :=
  { id := 6, chat_id := 7, sender := some "Боб", type := some "Chat",
    text := String.mk (List.replicate 301 'a'), date := "2024-01-02 10:00:00" }

/-- C7 witness: the 301-character body of `longMsg` is rendered capped to
300 characters plus the ellipsis. -/
theorem C7_witness :
    (senderStr longMsg ++ ": " ++ (pyTake (pyStrip longMsg.text) perMessageCap ++ "..."))
      ∈ formatParts [longMsg] :=
  (C7_amended_per_message_cap [longMsg] longMsg (by decide) (by decide)).1 (by decide)

/-- C1: the flags after a run are exactly the flags before, with `true`
written over precisely the rows whose key occurs in the run's backlog
snapshot, when (and only when) the summarization call succeeded — so no
flag is set on a failed call; under the table's `(id, chat_id)` uniqueness
a row's key occurs in the snapshot exactly when the row is unprocessed;
and along any sequence of runs each row's flag goes from `false` to `true`
at most once. -/
theorem C1_at_most_one_outcome_per_message (db : Store) (net : NetResult) (now : Int)
    (hkeys : (db.messages.map (fun r => (r.id, r.chat_id))).Nodup) :
    ((generate_summary_from_db db net now).1.messages
      = db.messages.map (fun r =>
          if summaryTruthy (create_summary (get_new_messages db.messages) net) = true
              ∧ (r.id, r.chat_id)
                  ∈ (get_new_messages db.messages).map (fun x => (x.id, x.chat_id))
          then { r with is_summarised := true } else r))
    ∧ (∀ r ∈ db.messages,
        ((r.id, r.chat_id)
            ∈ (get_new_messages db.messages).map (fun x => (x.id, x.chat_id))
          ↔ r.is_summarised = false))
    ∧ (∀ (events : List (NetResult × Int)) (i : Nat),
        countFlips (flagTrace db events i) ≤ 1) := by
  refine ⟨?_, ?_, fun events i => countFlips_flagTrace_le_one db events i⟩
  · cases hsnap : get_new_messages db.messages with
    | nil =>
      simp only [generate_summary_from_db, hsnap, List.map_nil, List.not_mem_nil,
        and_false, if_false]
      exact (List.map_id' db.messages).symm
    | cons m ms =>
      by_cases hs : summaryTruthy (create_summary (m :: ms) net) = true
      · have hmark := mark_eq_map db.messages ((m :: ms).map (fun x => (x.id, x.chat_id)))
        simp only [generate_summary_from_db, hsnap, hs, if_true, hmark]
        simp [hs]
      · simp only [generate_summary_from_db, hsnap]
        rw [if_neg (by simpa using hs)]
        have : ∀ r : Row,
            (if summaryTruthy (create_summary (m :: ms) net) = true
                ∧ (r.id, r.chat_id) ∈ (m :: ms).map (fun x => (x.id, x.chat_id))
             then { r with is_summarised := true } else r) = r := by
          intro r
          rw [if_neg]
          intro hc
          exact hs hc.1
        simp only [this]
        exact (List.map_id' db.messages).symm
  · intro r hr
    constructor
    · intro hmem
      obtain ⟨x, hx, hxkey⟩ := List.mem_map.mp hmem
      rw [mem_get_new_messages] at hx
      obtain ⟨r2, hr2, hr2x⟩ := List.mem_map.mp hx
      rw [List.mem_filter] at hr2
      obtain ⟨hr2mem, hr2flag⟩ := hr2
      have hkey2 : (r2.id, r2.chat_id) = (r.id, r.chat_id) := by
        rw [← hxkey, ← hr2x]
        rfl
      have : r2 = r := List.inj_on_of_nodup_map hkeys hr2mem hr hkey2
      rw [← this]
      simpa using hr2flag
    · intro hflag
      refine List.mem_map.mpr ⟨rowToMsg r, ?_, rfl⟩
      rw [mem_get_new_messages]
      exact List.mem_map.mpr ⟨r, List.mem_filter.mpr ⟨hr, by simp [hflag]⟩, rfl⟩

/-- C1 witness: the sample store has unique keys, and a successful run
marks exactly its snapshot. -/
theorem C1_witness :
    (sampleDb.messages.map (fun r => (r.id, r.chat_id))).Nodup
    ∧ (∀ r ∈ sampleDb.messages,
        ((r.id, r.chat_id)
            ∈ (get_new_messages sampleDb.messages).map (fun x => (x.id, x.chat_id))
          ↔ r.is_summarised = false)) :=
  ⟨by decide,
    (C1_at_most_one_outcome_per_message sampleDb (NetResult.response "Сводка") 7
      (by decide)).2.1⟩

end TgSummary
